import Mathlib

/-!
# Verification development for the deal-screening recomputation pipeline

Shallow embedding, over exact rationals (`ℚ`), of:

* `tools/screening.py` — the pure scoring engine `compute_screening`, its
  helpers `loan_constant`, `_score_from_bands`, `_safe_div`, `_avg`,
  `_clamp`, and the `HardFilterCheck` dataclass;
* `legacy/python/tools/screening_runtime.py` — the input resolver
  (`_parse_number`, `_coerce_value`, `_build_override_map`,
  `build_screening_inputs`, `apply_score_overrides`);
* `legacy/python/tools/job_queue.py` — the retry/backoff decision logic of
  `JobQueue._worker_loop`, modelled as a pure step function plus an
  explicit per-job trace.

Python `Optional[float]` becomes `Option ℚ`; Python `None` becomes `none`.
A Python function that can raise is embedded as `Except String`.
Python `round(x, n)` (round-half-to-even) is modelled exactly on `ℚ` by
`roundHalfEven`.  Strings are modelled over their character lists; the
scope of the string-number model is finite ASCII decimal literals
(Python's non-finite `inf`/`nan` literals and non-ASCII digits are not
representable in `ℚ` and parse to `none` in the model).
-/

namespace GpcCres

/-! ## Raw Python values

`_parse_number` in `screening_runtime.py` receives arbitrary Python
values (`Any`).  The relevant cases are `None`, `bool`, `int`/`float`
(both collapse to `ℚ` here) and `str`. -/

inductive RawValue where
  | null : RawValue
  | boolean (b : Bool) : RawValue
  | num (q : ℚ) : RawValue
  | str (s : String) : RawValue
deriving DecidableEq, Repr

/-! ## Model of Python `float(str)` on finite decimal literals

Grammar accepted (matching CPython for finite ASCII inputs):
`[+|-] (digits [. digits?] | . digits) [(e|E) [+|-] digits]` where each
digit group is `digit (['_'] digit)*` — per PEP 515 an underscore may
appear only *between* two digits of a group, never leading or
trailing. -/

/-- Consume one maximal digit group `digit (['_'] digit)*`: an
underscore is consumed only after at least one digit (`cnt ≠ 0`) and
only when a digit follows, so a group-leading underscore stops the
group at zero digits and the whole literal is rejected downstream.
Returns (accumulated value, digit count, rest). -/
def parseDigitsAux : List Char → ℕ → ℕ → ℕ × ℕ × List Char
  | [], acc, cnt => (acc, cnt, [])
  | '_' :: c :: rest, acc, cnt =>
      if cnt ≠ 0 ∧ c.isDigit then parseDigitsAux rest (acc * 10 + (c.toNat - 48)) (cnt + 1)
      else (acc, cnt, '_' :: c :: rest)
  | c :: rest, acc, cnt =>
      if c.isDigit then parseDigitsAux rest (acc * 10 + (c.toNat - 48)) (cnt + 1)
      else (acc, cnt, c :: rest)

/-- Exponent suffix of a float literal (everything after `e`/`E`). -/
def parseExpPart (mant : ℚ) (l : List Char) : Option ℚ :=
  let sl : Bool × List Char :=
    match l with
    | '+' :: r => (true, r)
    | '-' :: r => (false, r)
    | r => (true, r)
  let t := parseDigitsAux sl.2 0 0
  if t.2.1 = 0 ∨ t.2.2 ≠ [] then none
  else some (if sl.1 then mant * 10 ^ t.1 else mant / 10 ^ t.1)

/-- Model of `float(s)` for a pre-stripped string `s`, as exact rational. -/
def floatOfChars (l : List Char) : Option ℚ :=
  let sl : ℚ × List Char :=
    match l with
    | '+' :: r => (1, r)
    | '-' :: r => (-1, r)
    | r => (1, r)
  let ti := parseDigitsAux sl.2 0 0
  let tf : ℕ × ℕ × List Char :=
    match ti.2.2 with
    | '.' :: r => parseDigitsAux r 0 0
    | _ => (0, 0, ti.2.2)
  if ti.2.1 + tf.2.1 = 0 then none
  else
    let mant : ℚ := sl.1 * ((ti.1 : ℚ) + (tf.1 : ℚ) / (10 : ℚ) ^ tf.2.1)
    match tf.2.2 with
    | [] => some mant
    | 'e' :: r => parseExpPart mant r
    | 'E' :: r => parseExpPart mant r
    | _ => none

/-! ## `_parse_number` (screening_runtime.py, lines 36–62) -/

/-- Python `str.strip()` on the character list: drop whitespace from
both ends (structural, so that it evaluates). -/
def trimChars (l : List Char) : List Char :=
  ((l.dropWhile Char.isWhitespace).reverse.dropWhile Char.isWhitespace).reverse

/-- Python `value.strip()`. -/
def pyStrip (s : String) : String := String.mk (trimChars s.toList)

/-- The cleaned string: `value.strip()` then removal of `$`, `,`, `%` and
spaces, then a final strip (mirrors the `.replace(...)` chain). -/
def cleanString (s : String) : String :=
  pyStrip (String.mk ((pyStrip s).toList.filter
    fun c => ¬(c = '$' ∨ c = ',' ∨ c = '%' ∨ c = ' ')))

/-- `_parse_number`: `None`/`bool` → `None`; numbers pass through;
strings are stripped, `%`-detected, cleaned and parsed; a `%` divides the
parsed number by 100; anything unparseable is `None`. -/
def parse_number : RawValue → Option ℚ
  | .null => none
  | .boolean _ => none
  | .num q => some q
  | .str s =>
      let cleaned := pyStrip s
      if cleaned = "" then none
      else
        let isPercent := cleaned.toList.contains '%'
        let cleaned2 := cleanString s
        if cleaned2 = "" then none
        else
          match floatOfChars cleaned2.toList with
          | none => none
          | some q => some (if isPercent then q / 100 else q)

/-! ## Screening engine data model (tools/screening.py) -/

/-- `DebtTemplate` (pydantic).  `amort_years` is kept as an unconstrained
integer so that the `ValueError` guard of `loan_constant` is expressible;
the pydantic field constraints appear in `DebtTemplate.Valid`. -/
structure DebtTemplate where
  ltv : ℚ := 13 / 20
  interest_rate : ℚ := 7 / 100
  amort_years : ℤ := 25
  io_years : ℤ := 0
  debt_fee_rate : ℚ := 1 / 100
deriving DecidableEq, Repr

/-- The pydantic `Field(ge=…, le=…)` constraints on `DebtTemplate`. -/
def DebtTemplate.Valid (d : DebtTemplate) : Prop :=
  0 ≤ d.ltv ∧ d.ltv ≤ 1 ∧ 0 ≤ d.interest_rate ∧ d.interest_rate ≤ 1 ∧
    1 ≤ d.amort_years ∧ d.amort_years ≤ 40 ∧ 0 ≤ d.io_years ∧ d.io_years ≤ 10 ∧
    0 ≤ d.debt_fee_rate ∧ d.debt_fee_rate ≤ 1 / 10

structure ClosingCostsTemplate where
  legal_pct : ℚ := 5 / 1000
  title_pct : ℚ := 3 / 1000
  due_diligence_flat : ℚ := 25000
deriving DecidableEq, Repr

def ClosingCostsTemplate.Valid (c : ClosingCostsTemplate) : Prop :=
  0 ≤ c.legal_pct ∧ c.legal_pct ≤ 1 / 10 ∧ 0 ≤ c.title_pct ∧ c.title_pct ≤ 1 / 10 ∧
    0 ≤ c.due_diligence_flat

structure ReservesTemplate where
  capex_reserve_per_sf_year : ℚ := 1 / 4
deriving DecidableEq, Repr

def ReservesTemplate.Valid (r : ReservesTemplate) : Prop :=
  0 ≤ r.capex_reserve_per_sf_year

structure HardFilters where
  min_dscr : ℚ := 5 / 4
  min_cap_rate : ℚ := 7 / 100
  min_yield_spread : ℚ := 15 / 1000
deriving DecidableEq, Repr

def HardFilters.Valid (h : HardFilters) : Prop :=
  0 ≤ h.min_dscr ∧ 0 ≤ h.min_cap_rate ∧ h.min_cap_rate ≤ 1 ∧
    0 ≤ h.min_yield_spread ∧ h.min_yield_spread ≤ 1

structure ScoringBands where
  cap_rate : List ℚ := [7/100, 8/100, 9/100, 10/100, 11/100]
  dscr : List ℚ := [125/100, 140/100, 155/100, 170/100, 185/100]
  cash_on_cash : List ℚ := [6/100, 8/100, 10/100, 12/100, 14/100]
  yield_on_cost : List ℚ := [6/100, 8/100, 10/100, 12/100, 14/100]
  yield_spread : List ℚ := [15/1000, 20/1000, 25/1000, 30/1000, 35/1000]
deriving DecidableEq, Repr

structure ScreeningPlaybook where
  low_confidence_threshold : ℚ := 7 / 10
  hard_filters : HardFilters := {}
  debt_template : DebtTemplate := {}
  closing_costs : ClosingCostsTemplate := {}
  reserves : ReservesTemplate := {}
  scoring_bands : ScoringBands := {}
deriving DecidableEq, Repr

/-- All pydantic field constraints of the playbook models. -/
def ScreeningPlaybook.Valid (p : ScreeningPlaybook) : Prop :=
  0 ≤ p.low_confidence_threshold ∧ p.low_confidence_threshold ≤ 1 ∧
    p.hard_filters.Valid ∧ p.debt_template.Valid ∧ p.closing_costs.Valid ∧
    p.reserves.Valid

/-- The all-defaults playbook (every pydantic default). -/
def defaultPlaybook : ScreeningPlaybook := {}

/-- `ScreeningScoringInputs`: every field `Optional[float]`.  A field
that held a non-numeric Python value (rejected by `_is_number`) is
modelled as `none`. -/
structure ScreeningScoringInputs where
  price_basis : Option ℚ := none
  total_project_cost : Option ℚ := none
  square_feet : Option ℚ := none
  noi_in_place : Option ℚ := none
  noi_stabilized : Option ℚ := none
  tenant_credit_score : Option ℚ := none
  asset_condition_score : Option ℚ := none
  market_dynamics_score : Option ℚ := none
deriving DecidableEq, Repr

structure ScreeningComputedMetrics where
  price_basis : Option ℚ := none
  total_cost : Option ℚ := none
  loan_amount : Option ℚ := none
  equity_invested : Option ℚ := none
  loan_constant : Option ℚ := none
  annual_debt_service : Option ℚ := none
  annual_reserves : Option ℚ := none
  cap_rate_in_place : Option ℚ := none
  cap_rate_stabilized : Option ℚ := none
  cap_rate_used : Option ℚ := none
  noi_used : Option ℚ := none
  yield_on_cost : Option ℚ := none
  yield_spread : Option ℚ := none
  dscr : Option ℚ := none
  cash_on_cash : Option ℚ := none
deriving DecidableEq, Repr

/-- The `metric_scores` dict (fixed key set, insertion order
cap_rate, yield_on_cost, cash_on_cash, dscr, tenant_credit,
asset_condition, market_dynamics). -/
structure MetricScores where
  cap_rate : Option ℚ := none
  yield_on_cost : Option ℚ := none
  cash_on_cash : Option ℚ := none
  dscr : Option ℚ := none
  tenant_credit : Option ℚ := none
  asset_condition : Option ℚ := none
  market_dynamics : Option ℚ := none
deriving DecidableEq, Repr

/-- The `metric_values` dict (fixed key set). -/
structure MetricValues where
  cap_rate_in_place : Option ℚ := none
  cap_rate_stabilized : Option ℚ := none
  cap_rate_used : Option ℚ := none
  yield_on_cost : Option ℚ := none
  yield_spread : Option ℚ := none
  cash_on_cash : Option ℚ := none
  dscr : Option ℚ := none
  loan_constant : Option ℚ := none
deriving DecidableEq, Repr

structure ScreeningScoreBreakdown where
  overall_score : Option ℚ := none
  financial_score : Option ℚ := none
  qualitative_score : Option ℚ := none
  is_provisional : Bool := true
  hard_filter_failed : Bool := false
  hard_filter_reasons : List String := []
  missing_keys : List String := []
  metric_scores : MetricScores := {}
  metric_values : MetricValues := {}
deriving DecidableEq, Repr

structure ScreeningComputation where
  metrics : ScreeningComputedMetrics
  scores : ScreeningScoreBreakdown
deriving DecidableEq, Repr

/-! ## Scoring-engine helper functions (tools/screening.py) -/

/-- `_clamp(value, low, high) = max(low, min(high, value))`. -/
def clamp (value low high : ℚ) : ℚ := max low (min high value)

/-- `loan_constant(annual_rate, amort_years)` (lines 155–175).  The
`ValueError` raised for `amort_years <= 0` is the `.error` branch. -/
def loan_constant (annual_rate : ℚ) (amort_years : ℤ) : Except String ℚ :=
  if amort_years ≤ 0 then .error "amort_years must be positive"
  else if annual_rate ≤ 0 then .ok (1 / (amort_years : ℚ))
  else
    let monthly_rate := annual_rate / 12
    let periods := (amort_years * 12).toNat
    .ok ((monthly_rate * (1 + monthly_rate) ^ periods)
          / ((1 + monthly_rate) ^ periods - 1) * 12)

/-- Loop body of `_score_from_bands`: `score = 1`, then for each
`(idx, threshold)` (1-based) set `score = idx` when `value >= threshold`. -/
def bandLoop (v : ℚ) : List ℚ → ℕ → ℕ → ℕ
  | [], _, score => score
  | t :: rest, idx, score => bandLoop v rest (idx + 1) (if t ≤ v then idx else score)

/-- `_score_from_bands(value, bands)` (lines 178–187). -/
def score_from_bands (value : Option ℚ) (bands : List ℚ) : Option ℚ :=
  match value with
  | none => none
  | some v => if bands.isEmpty then none else some ((bandLoop v bands 1 1 : ℕ) : ℚ)

/-- `_avg(values)` (lines 190–193). -/
def avg (values : List ℚ) : Option ℚ :=
  if values.isEmpty then none else some (values.sum / (values.length : ℚ))

/-- `_safe_div` (lines 237–242): `None` on a missing operand or a zero
denominator. -/
def safe_div (numerator denominator : Option ℚ) : Option ℚ :=
  match numerator, denominator with
  | some n, some d => if d = 0 then none else some (n / d)
  | _, _ => none

/-- `HardFilterCheck` dataclass (lines 196–203). -/
structure HardFilterCheck where
  name : String
  threshold : ℚ
  value : Option ℚ
deriving DecidableEq, Repr

/-- `HardFilterCheck.failed`: `value is not None and value < threshold`. -/
def HardFilterCheck.failed (c : HardFilterCheck) : Bool :=
  match c.value with
  | none => false
  | some v => v < c.threshold

/-! ## Rounding

Python `round(x, n)` rounds half to even.  On `ℚ` this is exact. -/

/-- Floor of a rational, written directly on the reduced fraction so
that it evaluates inside the kernel. -/
def ratFloor (q : ℚ) : ℤ := q.num.fdiv (q.den : ℤ)

/-- Nearest integer, ties to the even integer. -/
def roundHalfEven (q : ℚ) : ℤ :=
  let f := ratFloor q
  let r := q - (f : ℚ)
  if r < 1 / 2 then f
  else if 1 / 2 < r then f + 1
  else if f % 2 = 0 then f else f + 1

/-- `round(x, 2)`. -/
def round2 (q : ℚ) : ℚ := (roundHalfEven (q * 100) : ℚ) / 100

/-- `round(x, 4)` (the `_round_or_none` rounding on metrics). -/
def round4 (q : ℚ) : ℚ := (roundHalfEven (q * 10000) : ℚ) / 10000

/-! ## `sorted(set(missing_keys))` -/

def insertStr (x : String) : List String → List String
  | [] => [x]
  | y :: ys => if x < y then x :: y :: ys else y :: insertStr x ys

def sortStrings : List String → List String
  | [] => []
  | x :: xs => insertStr x (sortStrings xs)

/-- `sorted(set(l))` as a list: distinct elements in ascending order. -/
def sortedDedup (l : List String) : List String := sortStrings l.eraseDups

/-! ## `compute_screening` (lines 206–413)

The body is split into `internalsCore` (every intermediate value of the
function body, given the already-computed loan constant), `internals`
(which runs `loan_constant`, the single fallible call) and `assemble`
(group averages, overall score, provisional flag, hard filters, rounding
and packaging).  `compute_screening` is their composition. -/

/-- Every intermediate value of the `compute_screening` body. -/
structure Internals where
  price_basis : Option ℚ
  square_feet : Option ℚ
  noi_in_place : Option ℚ
  noi_stabilized : Option ℚ
  noi_for_cap : Option ℚ
  noi_for_cashflow : Option ℚ
  cap_rate_in_place : Option ℚ
  cap_rate_stabilized : Option ℚ
  cap_rate_used : Option ℚ
  loan_amt : Option ℚ
  lc : Option ℚ
  annual_debt_service : Option ℚ
  total_cost : Option ℚ
  equity : Option ℚ
  reserves : Option ℚ
  noi_after_reserves : Option ℚ
  dscr : Option ℚ
  yield_on_cost : Option ℚ
  yield_spread : Option ℚ
  cash_flow_after_debt : Option ℚ
  cash_on_cash : Option ℚ
  qual_tenant : Option ℚ
  qual_asset : Option ℚ
  qual_market : Option ℚ
  s_cap_rate : Option ℚ
  s_yield_on_cost : Option ℚ
  s_cash_on_cash : Option ℚ
  s_dscr : Option ℚ
  missing_keys : List String
deriving DecidableEq, Repr

/-- Body of `compute_screening` up to the per-metric scores, with the
loan constant `lc` passed in (`lc = none` exactly when
`price_basis = none`, see `internals`). -/
def internalsCore (playbook : ScreeningPlaybook) (inputs : ScreeningScoringInputs)
    (lc : Option ℚ) : Internals :=
  let price_basis := inputs.price_basis
  let square_feet := inputs.square_feet
  let noi_in_place := inputs.noi_in_place
  let noi_stabilized := inputs.noi_stabilized
  let noi_for_cap := match noi_stabilized with
    | some v => some v
    | none => noi_in_place
  let noi_for_cashflow := match noi_in_place with
    | some v => some v
    | none => noi_stabilized
  let cap_rate_in_place := safe_div noi_in_place price_basis
  let cap_rate_stabilized := safe_div noi_stabilized price_basis
  let cap_rate_used := safe_div noi_for_cap price_basis
  let debt := playbook.debt_template
  let closing := playbook.closing_costs
  let loan_amt := price_basis.map (· * debt.ltv)
  let annual_debt_service := match loan_amt, lc with
    | some la, some l => some (la * l)
    | _, _ => none
  let total_cost := match inputs.total_project_cost, price_basis, loan_amt with
    | none, some p, some la =>
        some (p + p * closing.legal_pct + p * closing.title_pct
              + closing.due_diligence_flat + la * debt.debt_fee_rate)
    | tc, _, _ => tc
  let equity := match total_cost, loan_amt with
    | some t, some la => some (t - la)
    | _, _ => none
  let reserves := square_feet.map (· * playbook.reserves.capex_reserve_per_sf_year)
  let noi_after_reserves := match noi_for_cashflow, reserves with
    | some n, some r => some (n - r)
    | _, _ => none
  let dscr := safe_div noi_after_reserves annual_debt_service
  let yield_on_cost := safe_div noi_for_cap total_cost
  let yield_spread := match yield_on_cost, lc with
    | some y, some l => some (y - l)
    | _, _ => none
  let cash_flow_after_debt := match noi_after_reserves, annual_debt_service with
    | some n, some a => some (n - a)
    | _, _ => none
  let cash_on_cash := match cash_flow_after_debt, equity with
    | some c, some e => if 0 < e then some (c / e) else none
    | _, _ => none
  let qual_tenant := inputs.tenant_credit_score.map (fun r => clamp r 1 5)
  let qual_asset := inputs.asset_condition_score.map (fun r => clamp r 1 5)
  let qual_market := inputs.market_dynamics_score.map (fun r => clamp r 1 5)
  let bands := playbook.scoring_bands
  let missing_keys :=
    (if price_basis = none then ["price_basis"] else [])
      ++ (if square_feet = none then ["square_feet"] else [])
      ++ (if noi_in_place = none then ["noi_in_place"] else [])
      ++ (if noi_stabilized = none then ["noi_stabilized"] else [])
      ++ (if qual_tenant = none then ["tenant_credit"] else [])
      ++ (if qual_asset = none then ["asset_condition"] else [])
      ++ (if qual_market = none then ["market_dynamics"] else [])
  { price_basis, square_feet, noi_in_place, noi_stabilized, noi_for_cap,
    noi_for_cashflow, cap_rate_in_place, cap_rate_stabilized, cap_rate_used,
    loan_amt, lc, annual_debt_service, total_cost, equity, reserves,
    noi_after_reserves, dscr, yield_on_cost, yield_spread, cash_flow_after_debt,
    cash_on_cash, qual_tenant, qual_asset, qual_market,
    s_cap_rate := score_from_bands cap_rate_used bands.cap_rate,
    s_yield_on_cost := score_from_bands yield_on_cost bands.yield_on_cost,
    s_cash_on_cash := score_from_bands cash_on_cash bands.cash_on_cash,
    s_dscr := score_from_bands dscr bands.dscr,
    missing_keys }

/-- Runs the single fallible call of `compute_screening`:
`loan_constant` is invoked exactly when `loan_amt` is present
(line 252), and its `ValueError` propagates. -/
def internals (playbook : ScreeningPlaybook) (inputs : ScreeningScoringInputs) :
    Except String Internals :=
  match (match inputs.price_basis.map (· * playbook.debt_template.ltv) with
         | none => Except.ok (none : Option ℚ)
         | some _ =>
             (loan_constant playbook.debt_template.interest_rate
               playbook.debt_template.amort_years).map some) with
  | .error e => .error e
  | .ok lc => .ok (internalsCore playbook inputs lc)

/-- The financial group components: non-null banded scores among
cap_rate, yield_on_cost, cash_on_cash, dscr (lines 334–338). -/
def financialComponents (it : Internals) : List ℚ :=
  [it.s_cap_rate, it.s_yield_on_cost, it.s_cash_on_cash, it.s_dscr].filterMap id

/-- The qualitative group components: non-null clamped scores among
tenant_credit, asset_condition, market_dynamics (lines 339–343). -/
def qualitativeComponents (it : Internals) : List ℚ :=
  [it.qual_tenant, it.qual_asset, it.qual_market].filterMap id

/-- The `ScreeningComputedMetrics(...)` construction (lines 383–399). -/
def assembleMetrics (it : Internals) : ScreeningComputedMetrics :=
  { price_basis := it.price_basis.map round4
    total_cost := it.total_cost.map round4
    loan_amount := it.loan_amt.map round4
    equity_invested := it.equity.map round4
    loan_constant := it.lc.map round4
    annual_debt_service := it.annual_debt_service.map round4
    annual_reserves := it.reserves.map round4
    cap_rate_in_place := it.cap_rate_in_place.map round4
    cap_rate_stabilized := it.cap_rate_stabilized.map round4
    cap_rate_used := it.cap_rate_used.map round4
    noi_used := it.noi_for_cap.map round4
    yield_on_cost := it.yield_on_cost.map round4
    yield_spread := it.yield_spread.map round4
    dscr := it.dscr.map round4
    cash_on_cash := it.cash_on_cash.map round4 }

/-- The `hard_checks` list (lines 368–373): each filter names itself,
carries its playbook threshold and its (possibly missing) metric. -/
def hardChecks (playbook : ScreeningPlaybook) (it : Internals) : List HardFilterCheck :=
  [⟨"dscr", playbook.hard_filters.min_dscr, it.dscr⟩,
   ⟨"cap_rate", playbook.hard_filters.min_cap_rate, it.cap_rate_used⟩,
   ⟨"yield_spread", playbook.hard_filters.min_yield_spread, it.yield_spread⟩]

/-- Group averages, overall score, provisional flag, hard filters and
the `ScreeningScoreBreakdown(...)` construction (lines 334–411). -/
def assembleScores (playbook : ScreeningPlaybook) (it : Internals) : ScreeningScoreBreakdown :=
  let financial_score := avg (financialComponents it)
  let qualitative_score := avg (qualitativeComponents it)
  let overall_score : Option ℚ := match financial_score, qualitative_score with
    | some f, some q => some (1/2 * f + 1/2 * q)
    | some f, none => some f
    | none, q => q
  let is_provisional :=
    [it.s_cap_rate, it.s_yield_on_cost, it.s_cash_on_cash, it.s_dscr,
      it.qual_tenant, it.qual_asset, it.qual_market].any (·.isNone)
  let hard_filter_reasons := ((hardChecks playbook it).filter (·.failed)).map (·.name)
  let hard_filter_failed := !hard_filter_reasons.isEmpty
  { overall_score := overall_score.map round2
    financial_score := financial_score.map round2
    qualitative_score := qualitative_score.map round2
    is_provisional
    hard_filter_failed
    hard_filter_reasons
    missing_keys := sortedDedup it.missing_keys
    metric_scores :=
      { cap_rate := it.s_cap_rate.map round2
        yield_on_cost := it.s_yield_on_cost.map round2
        cash_on_cash := it.s_cash_on_cash.map round2
        dscr := it.s_dscr.map round2
        tenant_credit := it.qual_tenant.map round2
        asset_condition := it.qual_asset.map round2
        market_dynamics := it.qual_market.map round2 }
    metric_values :=
      { cap_rate_in_place := it.cap_rate_in_place.map round4
        cap_rate_stabilized := it.cap_rate_stabilized.map round4
        cap_rate_used := it.cap_rate_used.map round4
        yield_on_cost := it.yield_on_cost.map round4
        yield_spread := it.yield_spread.map round4
        cash_on_cash := it.cash_on_cash.map round4
        dscr := it.dscr.map round4
        loan_constant := it.lc.map round4 } }

/-- Packaging of metrics and scores into `ScreeningComputation`. -/
def assemble (playbook : ScreeningPlaybook) (it : Internals) : ScreeningComputation :=
  { metrics := assembleMetrics it, scores := assembleScores playbook it }

/-- `compute_screening(playbook, inputs)`: the full pure scoring engine.
The `.error` branch is the propagated `ValueError` of `loan_constant`. -/
def compute_screening (playbook : ScreeningPlaybook) (inputs : ScreeningScoringInputs) :
    Except String ScreeningComputation :=
  (internals playbook inputs).map (assemble playbook)

/-! ## Input resolver (legacy/python/tools/screening_runtime.py)

Field-value and override rows are Python dicts; both are modelled by one
record type whose members are the keys the module reads (`.get` of an
absent key gives `None`, i.e. the default here). -/

/-- One field-value or override row. -/
structure ValueRecord where
  field_key : Option String := none
  value_number : RawValue := .null
  value_text : RawValue := .null
  scope : Option String := none
  confidence : RawValue := .null
deriving DecidableEq, Repr

/-- `_coerce_value(record)` (lines 65–70). -/
def coerce_value (r : ValueRecord) : Option ℚ :=
  if r.value_number ≠ .null then parse_number r.value_number
  else if r.value_text ≠ .null then parse_number r.value_text
  else none

/-- `_build_override_map(overrides, scope)` (lines 73–84): first row per
(non-empty) field key with matching scope wins; rows with a falsy
field key are skipped. -/
def build_override_map (overrides : List ValueRecord) (scope : String) :
    List (String × ValueRecord) :=
  overrides.foldl
    (fun m o =>
      match o.scope, o.field_key with
      | some sc, some k =>
          if sc = scope ∧ k ≠ "" ∧ (m.lookup k).isNone then m ++ [(k, o)] else m
      | _, _ => m)
    []

/-- `override_map.get(key)`. -/
def overrideFor (overrides : List ValueRecord) (scope key : String) : Option ValueRecord :=
  (build_override_map overrides scope).lookup key

/-- The `values_map` built by `build_screening_inputs` (lines 95–99):
last row per non-empty string field key wins. -/
def build_values_map (field_values : List ValueRecord) : List (String × ValueRecord) :=
  field_values.foldl
    (fun m v =>
      match v.field_key with
      | some k => if k ≠ "" then (k, v) :: m else m
      | none => m)
    []

/-- Resolution of one raw field key (loop body, lines 103–109): the
field-scope override wins; otherwise the extracted row is coerced. -/
def resolve_one (field_values overrides : List ValueRecord) (raw_key : String) : Option ℚ :=
  match overrideFor overrides "field" raw_key with
  | some ov => coerce_value ov
  | none =>
      match (build_values_map field_values).lookup raw_key with
      | some r => coerce_value r
      | none => none

/-- `FIELD_KEY_ALIASES` in its Python dict insertion order. -/
def FIELD_KEY_ALIASES : List (String × String) :=
  [("price_basis", "price_basis"),
   ("underwritten_price", "price_basis"),
   ("asking_price", "price_basis"),
   ("total_project_cost", "total_project_cost"),
   ("total_cost", "total_project_cost"),
   ("square_feet", "square_feet"),
   ("sf", "square_feet"),
   ("noi_in_place", "noi_in_place"),
   ("noi_stabilized", "noi_stabilized"),
   ("tenant_credit", "tenant_credit_score"),
   ("tenant_credit_score", "tenant_credit_score"),
   ("asset_condition", "asset_condition_score"),
   ("asset_condition_score", "asset_condition_score"),
   ("market_dynamics", "market_dynamics_score"),
   ("market_dynamics_score", "market_dynamics_score")]

/-- The `resolved` dict after the alias loop (lines 102–111): a key is
inserted at its first alias and overwritten by a later alias only while
its current value is `None`. -/
def build_resolved (field_values overrides : List ValueRecord) :
    List (String × Option ℚ) :=
  FIELD_KEY_ALIASES.foldl
    (fun resolved rn =>
      let rv := resolve_one field_values overrides rn.1
      match resolved.lookup rn.2 with
      | none => resolved ++ [(rn.2, rv)]
      | some none => resolved.map fun p => if p.1 = rn.2 then (p.1, rv) else p
      | some (some _) => resolved)
    []

/-- `build_screening_inputs(field_values, overrides)` (lines 87–122). -/
def build_screening_inputs (field_values overrides : List ValueRecord) :
    ScreeningScoringInputs :=
  let r := build_resolved field_values overrides
  { price_basis := (r.lookup "price_basis").join
    total_project_cost := (r.lookup "total_project_cost").join
    square_feet := (r.lookup "square_feet").join
    noi_in_place := (r.lookup "noi_in_place").join
    noi_stabilized := (r.lookup "noi_stabilized").join
    tenant_credit_score := (r.lookup "tenant_credit_score").join
    asset_condition_score := (r.lookup "asset_condition_score").join
    market_dynamics_score := (r.lookup "market_dynamics_score").join }

/-! ## `apply_score_overrides` (lines 143–156)

`base_scores` is an arbitrary Python dict; it is modelled as a total map
from keys to raw values.  The Python function copies the dict
(`updated = dict(base_scores)`) and never mutates its argument; in the
pure embedding this is the statement that the result agrees with `base`
everywhere except where an override applies. -/

/-- `SCORE_OVERRIDE_KEYS` (line 33; a Python `set`, iteration order
immaterial since the keys are distinct). -/
def SCORE_OVERRIDE_KEYS : List String :=
  ["overall_score", "financial_score", "qualitative_score"]

/-- `updated[key] = value` on the map model. -/
def updateKey (m : String → RawValue) (key : String) (v : RawValue) : String → RawValue :=
  fun k => if k = key then v else m k

/-- One iteration of the `for key in SCORE_OVERRIDE_KEYS` loop. -/
def applyOneScoreOverride (overrides : List ValueRecord) (m : String → RawValue)
    (key : String) : String → RawValue :=
  match overrideFor overrides "score" key with
  | none => m
  | some ov =>
      match coerce_value ov with
      | none => m
      | some q => updateKey m key (.num q)

/-- `apply_score_overrides(base_scores, overrides)`. -/
def apply_score_overrides (base_scores : String → RawValue)
    (overrides : List ValueRecord) : String → RawValue :=
  SCORE_OVERRIDE_KEYS.foldl (applyOneScoreOverride overrides) base_scores

/-! ## Job queue retry logic (legacy/python/tools/job_queue.py)

The queue itself is asyncio machinery; the verified part is the pure
retry/backoff decision taken by `_worker_loop` when a handler invocation
raises (lines 84–101), and the induced per-job trace. -/

structure QueueJob where
  job_type : String
  payload_run_id : Option String := none
  attempt : ℕ := 0
deriving DecidableEq, Repr

structure RetryConfig where
  max_retries : ℕ := 3
  base_delay : ℚ := 2
  max_delay : ℚ := 30
deriving DecidableEq, Repr

/-- What `_worker_loop` does with one dequeued job.  `retry d next`
means: the on-retry callback runs, the loop sleeps `d`, and `next`
(the same job with `attempt + 1`) is re-enqueued — exactly once.
`failedFinal` means: the on-fail callback runs and nothing is
re-enqueued.  `raises` is whether this handler invocation raised
(a missing handler also raises, line 82). -/
inductive StepOutcome where
  | done : StepOutcome
  | retry (delay : ℚ) (next : QueueJob) : StepOutcome
  | failedFinal : StepOutcome
deriving DecidableEq, Repr

/-- The exception branch of `_worker_loop` (lines 84–101). -/
def worker_step (cfg : RetryConfig) (job : QueueJob) (raises : Bool) : StepOutcome :=
  if !raises then .done
  else if job.attempt < cfg.max_retries then
    .retry (min cfg.max_delay (cfg.base_delay * 2 ^ job.attempt))
      { job with attempt := job.attempt + 1 }
  else .failedFinal

/-- Trace of one job through the loop: `failsAt a` says whether the
handler raises on the invocation carrying attempt counter `a`.
Returns (number of handler invocations, retry delays in order, whether
the job ended in terminal failure).  `fuel` bounds the recursion and is
never exhausted when it starts at `max_retries + 1` (see the theorems). -/
def jobTraceAux (cfg : RetryConfig) (failsAt : ℕ → Bool) (job : QueueJob) :
    ℕ → ℕ × List ℚ × Bool
  | 0 => (0, [], false)
  | fuel + 1 =>
      match worker_step cfg job (failsAt job.attempt) with
      | .done => (1, [], false)
      | .failedFinal => (1, [], true)
      | .retry d next =>
          let t := jobTraceAux cfg failsAt next fuel
          (t.1 + 1, d :: t.2.1, t.2.2)

/-- Full trace of a job enqueued with attempt counter 0. -/
def jobTrace (cfg : RetryConfig) (failsAt : ℕ → Bool) (job_type : String) :
    ℕ × List ℚ × Bool :=
  jobTraceAux cfg failsAt { job_type, attempt := 0 } (cfg.max_retries + 1)

/-! # Theorems -/

/-! ## Banding (`_score_from_bands`) -/

/-- The loop of `_score_from_bands` on a five-band list keeps the last
(= highest) 1-based index whose threshold is at most the value. -/
lemma bandLoop_five (v b0 b1 b2 b3 b4 : ℚ) :
    bandLoop v [b0, b1, b2, b3, b4] 1 1 =
      if b4 ≤ v then 5 else if b3 ≤ v then 4 else if b2 ≤ v then 3
        else if b1 ≤ v then 2 else 1 := by
  simp only [bandLoop]
  by_cases h0 : b0 ≤ v <;> by_cases h1 : b1 ≤ v <;> by_cases h2 : b2 ≤ v <;>
    by_cases h3 : b3 ≤ v <;> by_cases h4 : b4 ≤ v <;> simp [h0, h1, h2, h3, h4]

/-- C3: on a list of five ascending thresholds, banding a present value
yields `some s` with `s` the largest 1-based index whose threshold is at
most the value (default 1), hence `1 ≤ s ≤ 5`, `s = 1` below the first
threshold, and a value in the half-open interval between consecutive
thresholds `band[i] ≤ v < band[i+1]` (0-based) scores exactly `i + 1`. -/
theorem score_from_bands_band_monotonicity
    (b0 b1 b2 b3 b4 v : ℚ)
    (h01 : b0 ≤ b1) (h12 : b1 ≤ b2) (h23 : b2 ≤ b3) (h34 : b3 ≤ b4) :
    ∃ s : ℕ,
      score_from_bands (some v) [b0, b1, b2, b3, b4] = some (s : ℚ) ∧
      1 ≤ s ∧ s ≤ 5 ∧
      (v < b0 → s = 1) ∧
      (b0 ≤ v → v < b1 → s = 1) ∧
      (b1 ≤ v → v < b2 → s = 2) ∧
      (b2 ≤ v → v < b3 → s = 3) ∧
      (b3 ≤ v → v < b4 → s = 4) ∧
      (b4 ≤ v → s = 5) ∧
      (b0 ≤ v → 1 ≤ s) ∧ (b1 ≤ v → 2 ≤ s) ∧ (b2 ≤ v → 3 ≤ s) ∧ (b3 ≤ v → 4 ≤ s) ∧
      (v < b1 → s ≤ 1) ∧ (v < b2 → s ≤ 2) ∧ (v < b3 → s ≤ 3) ∧ (v < b4 → s ≤ 4) := by
  refine ⟨bandLoop v [b0, b1, b2, b3, b4] 1 1, by simp [score_from_bands], ?_⟩
  rw [bandLoop_five]
  split_ifs with h4 h3 h2 h1 <;>
    refine ⟨by omega, by omega, fun h => ?_, fun ha h => ?_, fun ha h => ?_,
      fun ha h => ?_, fun ha h => ?_, fun ha => ?_, fun ha => ?_, fun ha => ?_,
      fun ha => ?_, fun ha => ?_, fun h => ?_, fun h => ?_, fun h => ?_, fun h => ?_⟩ <;>
    first | omega | linarith

/-- Witness for C3 at the default cap-rate bands and `v = 0.085`
(which lies in the second band and must score 2). -/
theorem score_from_bands_band_monotonicity_witness :
    ∃ s : ℕ,
      score_from_bands (some (85/1000)) [7/100, 8/100, 9/100, 10/100, 11/100]
          = some (s : ℚ) ∧
      1 ≤ s ∧ s ≤ 5 ∧
      ((85:ℚ)/1000 < 7/100 → s = 1) ∧
      ((7:ℚ)/100 ≤ 85/1000 → (85:ℚ)/1000 < 8/100 → s = 1) ∧
      ((8:ℚ)/100 ≤ 85/1000 → (85:ℚ)/1000 < 9/100 → s = 2) ∧
      ((9:ℚ)/100 ≤ 85/1000 → (85:ℚ)/1000 < 10/100 → s = 3) ∧
      ((10:ℚ)/100 ≤ 85/1000 → (85:ℚ)/1000 < 11/100 → s = 4) ∧
      ((11:ℚ)/100 ≤ 85/1000 → s = 5) ∧
      ((7:ℚ)/100 ≤ 85/1000 → 1 ≤ s) ∧ ((8:ℚ)/100 ≤ 85/1000 → 2 ≤ s) ∧
      ((9:ℚ)/100 ≤ 85/1000 → 3 ≤ s) ∧ ((10:ℚ)/100 ≤ 85/1000 → 4 ≤ s) ∧
      ((85:ℚ)/1000 < 8/100 → s ≤ 1) ∧ ((85:ℚ)/1000 < 9/100 → s ≤ 2) ∧
      ((85:ℚ)/1000 < 10/100 → s ≤ 3) ∧ ((85:ℚ)/1000 < 11/100 → s ≤ 4) :=
  score_from_bands_band_monotonicity (7/100) (8/100) (9/100) (10/100) (11/100)
    (85/1000) (by norm_num) (by norm_num) (by norm_num) (by norm_num)

/-! ## Loan constant -/

/-- C5: for `years ≥ 1` the loan constant is `1/years` for a non-positive
rate, the standard amortizing annuity factor for a positive rate, and at
(7%, 25 years) it is within `1e-4` of `0.08481`. -/
theorem loan_constant_spec (r : ℚ) (y : ℤ) (hy : 1 ≤ y) :
    (r ≤ 0 → loan_constant r y = .ok (1 / (y : ℚ))) ∧
    (0 < r → loan_constant r y =
      .ok ((r / 12) * (1 + r / 12) ^ (y * 12).toNat
            / ((1 + r / 12) ^ (y * 12).toNat - 1) * 12)) ∧
    (∃ v, loan_constant (7/100) 25 = .ok v ∧
      8471/100000 < v ∧ v < 8491/100000) := by
  have hy0 : ¬ y ≤ 0 := by omega
  refine ⟨fun hr => ?_, fun hr => ?_, ?_⟩
  · simp [loan_constant, hy0, hr]
  · simp [loan_constant, hy0, not_le.2 hr]
  · have hlt : ¬ (7:ℚ)/100 ≤ 0 := by norm_num
    have h25 : ¬ (25:ℤ) ≤ 0 := by norm_num
    have ht : ((25 * 12 : ℤ)).toNat = 300 := by decide
    refine ⟨(7/100 / 12) * (1 + 7/100 / 12) ^ ((25 * 12 : ℤ)).toNat
        / ((1 + 7/100 / 12) ^ ((25 * 12 : ℤ)).toNat - 1) * 12, ?_, ?_, ?_⟩
    · simp [loan_constant, h25, hlt]
    · rw [ht]; norm_num
    · rw [ht]; norm_num

/-- Witness for C5 at rate 0 and 7%, 25 years. -/
theorem loan_constant_spec_witness :
    ((0:ℚ) ≤ 0 → loan_constant (0:ℚ) 25 = .ok (1 / ((25:ℤ) : ℚ))) ∧
    ((0:ℚ) < 0 → loan_constant (0:ℚ) 25 =
      .ok (((0:ℚ) / 12) * (1 + (0:ℚ) / 12) ^ ((25 * 12 : ℤ)).toNat
            / ((1 + (0:ℚ) / 12) ^ ((25 * 12 : ℤ)).toNat - 1) * 12)) ∧
    (∃ v, loan_constant (7/100) 25 = .ok v ∧
      8471/100000 < v ∧ v < 8491/100000) :=
  loan_constant_spec 0 25 (by norm_num)

/-! ## Shape of a successful `compute_screening` run -/

/-- With a positive amortization term, the single fallible call succeeds
and `internals` returns the structure of intermediate values. -/
lemma internals_shape (pb : ScreeningPlaybook) (inputs : ScreeningScoringInputs)
    (hA : 1 ≤ pb.debt_template.amort_years) :
    ∃ lc, internals pb inputs = .ok (internalsCore pb inputs lc) := by
  unfold internals
  cases hp : inputs.price_basis with
  | none => exact ⟨none, by simp [hp]⟩
  | some p =>
      have h0 : ¬ pb.debt_template.amort_years ≤ 0 := by omega
      by_cases hr : pb.debt_template.interest_rate ≤ 0
      · exact ⟨some (1 / (pb.debt_template.amort_years : ℚ)),
          by simp [hp, loan_constant, h0, hr, Except.map]⟩
      · exact ⟨some ((pb.debt_template.interest_rate / 12)
            * (1 + pb.debt_template.interest_rate / 12)
                ^ (pb.debt_template.amort_years * 12).toNat
            / ((1 + pb.debt_template.interest_rate / 12)
                ^ (pb.debt_template.amort_years * 12).toNat - 1) * 12),
          by simp [hp, loan_constant, h0, hr, Except.map]⟩

lemma compute_screening_of_internals (pb : ScreeningPlaybook)
    (inputs : ScreeningScoringInputs) (it : Internals)
    (h : internals pb inputs = .ok it) :
    compute_screening pb inputs = .ok (assemble pb it) := by
  simp [compute_screening, h, Except.map]

/-! ## C1: group averages and the overall score -/

/-- C1: in a successful screening, `financial_score` is the rounded
arithmetic mean of exactly the non-null banded scores among cap rate,
yield on cost, cash on cash and DSCR; `qualitative_score` likewise over
the three clamped qualitative scores; `overall_score` is the rounded
50/50 blend when both group means exist, equals the other group's
(rounded) score when one group is entirely absent, and is null exactly
when both groups are absent. -/
theorem compute_screening_group_scores (pb : ScreeningPlaybook)
    (inputs : ScreeningScoringInputs) (hA : 1 ≤ pb.debt_template.amort_years) :
    ∃ it c, internals pb inputs = .ok it ∧ compute_screening pb inputs = .ok c ∧
      it.s_cap_rate = score_from_bands it.cap_rate_used pb.scoring_bands.cap_rate ∧
      it.s_yield_on_cost
        = score_from_bands it.yield_on_cost pb.scoring_bands.yield_on_cost ∧
      it.s_cash_on_cash
        = score_from_bands it.cash_on_cash pb.scoring_bands.cash_on_cash ∧
      it.s_dscr = score_from_bands it.dscr pb.scoring_bands.dscr ∧
      it.qual_tenant = inputs.tenant_credit_score.map (fun r => clamp r 1 5) ∧
      it.qual_asset = inputs.asset_condition_score.map (fun r => clamp r 1 5) ∧
      it.qual_market = inputs.market_dynamics_score.map (fun r => clamp r 1 5) ∧
      financialComponents it
        = [it.s_cap_rate, it.s_yield_on_cost, it.s_cash_on_cash, it.s_dscr].filterMap id ∧
      qualitativeComponents it
        = [it.qual_tenant, it.qual_asset, it.qual_market].filterMap id ∧
      c.scores.financial_score = (avg (financialComponents it)).map round2 ∧
      c.scores.qualitative_score = (avg (qualitativeComponents it)).map round2 ∧
      (∀ f q, avg (financialComponents it) = some f →
        avg (qualitativeComponents it) = some q →
        c.scores.overall_score = some (round2 (1/2 * f + 1/2 * q))) ∧
      (avg (financialComponents it) = none →
        c.scores.overall_score = c.scores.qualitative_score) ∧
      (avg (qualitativeComponents it) = none →
        c.scores.overall_score = c.scores.financial_score) ∧
      (avg (financialComponents it) = none → avg (qualitativeComponents it) = none →
        c.scores.overall_score = none) := by
  obtain ⟨lc, hok⟩ := internals_shape pb inputs hA
  refine ⟨internalsCore pb inputs lc, assemble pb (internalsCore pb inputs lc), hok,
    compute_screening_of_internals pb inputs _ hok,
    rfl, rfl, rfl, rfl, rfl, rfl, rfl, rfl, rfl, rfl, rfl, ?_, ?_, ?_, ?_⟩
  · intro f q hf hq
    have : (assemble pb (internalsCore pb inputs lc)).scores.overall_score
        = (match avg (financialComponents (internalsCore pb inputs lc)),
                 avg (qualitativeComponents (internalsCore pb inputs lc)) with
           | some f, some q => some (1/2 * f + 1/2 * q)
           | some f, none => some f
           | none, q => q).map round2 := rfl
    rw [this, hf, hq]
    rfl
  · intro hf
    have h1 : (assemble pb (internalsCore pb inputs lc)).scores.overall_score
        = (match avg (financialComponents (internalsCore pb inputs lc)),
                 avg (qualitativeComponents (internalsCore pb inputs lc)) with
           | some f, some q => some (1/2 * f + 1/2 * q)
           | some f, none => some f
           | none, q => q).map round2 := rfl
    have h2 : (assemble pb (internalsCore pb inputs lc)).scores.qualitative_score
        = (avg (qualitativeComponents (internalsCore pb inputs lc))).map round2 := rfl
    rw [h1, hf, h2]
  · intro hq
    have h1 : (assemble pb (internalsCore pb inputs lc)).scores.overall_score
        = (match avg (financialComponents (internalsCore pb inputs lc)),
                 avg (qualitativeComponents (internalsCore pb inputs lc)) with
           | some f, some q => some (1/2 * f + 1/2 * q)
           | some f, none => some f
           | none, q => q).map round2 := rfl
    rw [h1, hq]
    cases hf : avg (financialComponents (internalsCore pb inputs lc)) with
    | none =>
        have h2 : (assemble pb (internalsCore pb inputs lc)).scores.financial_score
            = (avg (financialComponents (internalsCore pb inputs lc))).map round2 := rfl
        rw [h2, hf]
    | some f =>
        have h2 : (assemble pb (internalsCore pb inputs lc)).scores.financial_score
            = (avg (financialComponents (internalsCore pb inputs lc))).map round2 := rfl
        rw [h2, hf]
  · intro hf hq
    have h1 : (assemble pb (internalsCore pb inputs lc)).scores.overall_score
        = (match avg (financialComponents (internalsCore pb inputs lc)),
                 avg (qualitativeComponents (internalsCore pb inputs lc)) with
           | some f, some q => some (1/2 * f + 1/2 * q)
           | some f, none => some f
           | none, q => q).map round2 := rfl
    rw [h1, hf, hq]
    rfl

/-- Witness for C1: qualitative-only inputs (4, 2, 3) on the default
playbook (the spec's no-penalty example). -/
theorem compute_screening_group_scores_witness :
    ∃ it c,
      internals defaultPlaybook
        { tenant_credit_score := some 4, asset_condition_score := some 2,
          market_dynamics_score := some 3 } = .ok it ∧
      compute_screening defaultPlaybook
        { tenant_credit_score := some 4, asset_condition_score := some 2,
          market_dynamics_score := some 3 } = .ok c ∧
      it.s_cap_rate
        = score_from_bands it.cap_rate_used defaultPlaybook.scoring_bands.cap_rate ∧
      it.s_yield_on_cost
        = score_from_bands it.yield_on_cost defaultPlaybook.scoring_bands.yield_on_cost ∧
      it.s_cash_on_cash
        = score_from_bands it.cash_on_cash defaultPlaybook.scoring_bands.cash_on_cash ∧
      it.s_dscr = score_from_bands it.dscr defaultPlaybook.scoring_bands.dscr ∧
      it.qual_tenant = (some (4:ℚ)).map (fun r => clamp r 1 5) ∧
      it.qual_asset = (some (2:ℚ)).map (fun r => clamp r 1 5) ∧
      it.qual_market = (some (3:ℚ)).map (fun r => clamp r 1 5) ∧
      financialComponents it
        = [it.s_cap_rate, it.s_yield_on_cost, it.s_cash_on_cash, it.s_dscr].filterMap id ∧
      qualitativeComponents it
        = [it.qual_tenant, it.qual_asset, it.qual_market].filterMap id ∧
      c.scores.financial_score = (avg (financialComponents it)).map round2 ∧
      c.scores.qualitative_score = (avg (qualitativeComponents it)).map round2 ∧
      (∀ f q, avg (financialComponents it) = some f →
        avg (qualitativeComponents it) = some q →
        c.scores.overall_score = some (round2 (1/2 * f + 1/2 * q))) ∧
      (avg (financialComponents it) = none →
        c.scores.overall_score = c.scores.qualitative_score) ∧
      (avg (qualitativeComponents it) = none →
        c.scores.overall_score = c.scores.financial_score) ∧
      (avg (financialComponents it) = none → avg (qualitativeComponents it) = none →
        c.scores.overall_score = none) :=
  compute_screening_group_scores defaultPlaybook
    { tenant_credit_score := some 4, asset_condition_score := some 2,
      market_dynamics_score := some 3 } (by decide)

/-! ## C2: hard filters -/

/-- A hard-filter check fails exactly when its metric is present and
strictly below its threshold; in particular a missing metric never
fails. -/
lemma hardFilterCheck_failed_iff (c : HardFilterCheck) :
    c.failed = true ↔ ∃ v, c.value = some v ∧ v < c.threshold := by
  cases c with
  | mk name threshold value =>
      cases value with
      | none => simp [HardFilterCheck.failed]
      | some v => simp [HardFilterCheck.failed]

/-- C2: in a successful screening, `hard_filter_reasons` is exactly the
list of names of the tripped checks among dscr, cap_rate, yield_spread
(in that order); a check trips iff its metric is non-null and below its
threshold; `hard_filter_failed` holds iff some check tripped; and when
dscr, cap_rate_used and yield_spread are all null, no filter fails. -/
theorem compute_screening_hard_filters (pb : ScreeningPlaybook)
    (inputs : ScreeningScoringInputs) (hA : 1 ≤ pb.debt_template.amort_years) :
    ∃ it c, internals pb inputs = .ok it ∧ compute_screening pb inputs = .ok c ∧
      hardChecks pb it
        = [⟨"dscr", pb.hard_filters.min_dscr, it.dscr⟩,
           ⟨"cap_rate", pb.hard_filters.min_cap_rate, it.cap_rate_used⟩,
           ⟨"yield_spread", pb.hard_filters.min_yield_spread, it.yield_spread⟩] ∧
      c.scores.hard_filter_reasons
        = ((hardChecks pb it).filter (·.failed)).map (·.name) ∧
      (∀ ch ∈ hardChecks pb it,
        ch.failed = true ↔ ∃ v, ch.value = some v ∧ v < ch.threshold) ∧
      (c.scores.hard_filter_failed = true ↔ c.scores.hard_filter_reasons ≠ []) ∧
      (it.dscr = none → it.cap_rate_used = none → it.yield_spread = none →
        c.scores.hard_filter_failed = false ∧ c.scores.hard_filter_reasons = []) := by
  obtain ⟨lc, hok⟩ := internals_shape pb inputs hA
  set it := internalsCore pb inputs lc with hit
  refine ⟨it, assemble pb it, hok, compute_screening_of_internals pb inputs _ hok,
    rfl, rfl, fun ch _ => hardFilterCheck_failed_iff ch, ?_, ?_⟩
  · have h1 : (assemble pb it).scores.hard_filter_failed
        = !((assemble pb it).scores.hard_filter_reasons).isEmpty := rfl
    rw [h1]
    cases hr : (assemble pb it).scores.hard_filter_reasons <;> simp [hr]
  · intro hd hc hy
    have h2 : (assemble pb it).scores.hard_filter_reasons
        = ((hardChecks pb it).filter (·.failed)).map (·.name) := rfl
    have h3 : ((hardChecks pb it).filter (·.failed)) = [] := by
      simp [hardChecks, hd, hc, hy, HardFilterCheck.failed, List.filter]
    refine ⟨?_, by rw [h2, h3]; rfl⟩
    have h1 : (assemble pb it).scores.hard_filter_failed
        = !((assemble pb it).scores.hard_filter_reasons).isEmpty := rfl
    rw [h1, h2, h3]
    rfl

/-- Witness for C2: all-null inputs on the default playbook (every
metric missing, so no hard filter may trip). -/
theorem compute_screening_hard_filters_witness :
    ∃ it c, internals defaultPlaybook {} = .ok it ∧
      compute_screening defaultPlaybook {} = .ok c ∧
      hardChecks defaultPlaybook it
        = [⟨"dscr", defaultPlaybook.hard_filters.min_dscr, it.dscr⟩,
           ⟨"cap_rate", defaultPlaybook.hard_filters.min_cap_rate, it.cap_rate_used⟩,
           ⟨"yield_spread", defaultPlaybook.hard_filters.min_yield_spread,
             it.yield_spread⟩] ∧
      c.scores.hard_filter_reasons
        = ((hardChecks defaultPlaybook it).filter (·.failed)).map (·.name) ∧
      (∀ ch ∈ hardChecks defaultPlaybook it,
        ch.failed = true ↔ ∃ v, ch.value = some v ∧ v < ch.threshold) ∧
      (c.scores.hard_filter_failed = true ↔ c.scores.hard_filter_reasons ≠ []) ∧
      (it.dscr = none → it.cap_rate_used = none → it.yield_spread = none →
        c.scores.hard_filter_failed = false ∧ c.scores.hard_filter_reasons = []) :=
  compute_screening_hard_filters defaultPlaybook {} (by decide)

/-! ## C4: cap-rate guards -/

lemma safe_div_some_some (n p : ℚ) (hp : p ≠ 0) :
    safe_div (some n) (some p) = some (n / p) := by
  simp [safe_div, hp]

lemma safe_div_none_of (x y : Option ℚ)
    (h : x = none ∨ y = none ∨ y = some 0) : safe_div x y = none := by
  rcases h with h | h | h
  · subst h; rfl
  · subst h; cases x <;> rfl
  · subst h; cases x <;> simp [safe_div]

/-- The playbook used in the C4 counterexample: defaults except a zero
interest rate (all pydantic constraints still hold). -/
def c4Playbook : ScreeningPlaybook := { debt_template := { interest_rate := 0 } }

/-- Inputs with a strictly negative price basis. -/
def c4Inputs : ScreeningScoringInputs :=
  { price_basis := some (-1000000), noi_in_place := some 70000 }

/-- An integer-valued rational rounds to itself. -/
lemma roundHalfEven_intCast (n : ℤ) : roundHalfEven (n : ℚ) = n := by
  unfold roundHalfEven ratFloor
  rw [Rat.num_intCast, Rat.den_intCast]
  norm_num [Int.fdiv_one]

/-- `round(·, 4)` fixes rationals with at most four decimal places. -/
lemma round4_of_int (q : ℚ) (n : ℤ) (h : q * 10000 = (n : ℚ)) :
    round4 q = (n : ℚ) / 10000 := by
  unfold round4
  rw [h, roundHalfEven_intCast]

/-- Counterexample to C4 as stated: with price basis −1,000,000 (not
`> 0`) and in-place NOI 70,000 present, `compute_screening` returns
`cap_rate_in_place = cap_rate_used = −0.07`, not null — the code guards
only against a zero denominator, not a non-positive one. -/
theorem cap_rate_positive_guard_counterexample :
    c4Inputs.price_basis = some (-1000000) ∧
    ∃ c, compute_screening c4Playbook c4Inputs = .ok c ∧
      c.metrics.cap_rate_in_place = some (-7/100) ∧
      c.metrics.cap_rate_used = some (-7/100) := by
  obtain ⟨lc, hok⟩ := internals_shape c4Playbook c4Inputs (by decide)
  have hval : safe_div (some (70000 : ℚ)) (some (-1000000)) = some (-7/100) := by
    norm_num [safe_div]
  have hround : round4 (-7/100 : ℚ) = -7/100 := by
    rw [round4_of_int (-7/100 : ℚ) (-700) (by norm_num)]
    norm_num
  refine ⟨rfl, assemble c4Playbook (internalsCore c4Playbook c4Inputs lc),
    compute_screening_of_internals _ _ _ hok, ?_, ?_⟩
  · have h1 : (assemble c4Playbook (internalsCore c4Playbook c4Inputs lc)).metrics.cap_rate_in_place
        = ((internalsCore c4Playbook c4Inputs lc).cap_rate_in_place).map round4 := rfl
    have h2 : (internalsCore c4Playbook c4Inputs lc).cap_rate_in_place
        = safe_div (some (70000 : ℚ)) (some (-1000000)) := rfl
    rw [h1, h2, hval, Option.map_some', hround]
  · have h1 : (assemble c4Playbook (internalsCore c4Playbook c4Inputs lc)).metrics.cap_rate_used
        = ((internalsCore c4Playbook c4Inputs lc).cap_rate_used).map round4 := rfl
    have h2 : (internalsCore c4Playbook c4Inputs lc).cap_rate_used
        = safe_div (some (70000 : ℚ)) (some (-1000000)) := rfl
    rw [h1, h2, hval, Option.map_some', hround]

/-- C4 (amended): each cap rate is computed exactly when its NOI and the
price basis are both present and the price basis is nonzero (not
necessarily positive); it is null when either operand is missing or the
price basis is zero.  `cap_rate_used` divides the stabilized-else-in-place
NOI by the price basis. -/
theorem cap_rates_guarded (pb : ScreeningPlaybook) (inputs : ScreeningScoringInputs)
    (hA : 1 ≤ pb.debt_template.amort_years) :
    ∃ it, internals pb inputs = .ok it ∧
      it.noi_for_cap = (match inputs.noi_stabilized with
                        | some v => some v
                        | none => inputs.noi_in_place) ∧
      it.cap_rate_in_place = safe_div inputs.noi_in_place inputs.price_basis ∧
      it.cap_rate_stabilized = safe_div inputs.noi_stabilized inputs.price_basis ∧
      it.cap_rate_used = safe_div it.noi_for_cap inputs.price_basis ∧
      (∀ n p, inputs.noi_in_place = some n → inputs.price_basis = some p → p ≠ 0 →
        it.cap_rate_in_place = some (n / p)) ∧
      (inputs.noi_in_place = none ∨ inputs.price_basis = none ∨
          inputs.price_basis = some 0 → it.cap_rate_in_place = none) ∧
      (∀ n p, inputs.noi_stabilized = some n → inputs.price_basis = some p → p ≠ 0 →
        it.cap_rate_stabilized = some (n / p)) ∧
      (inputs.noi_stabilized = none ∨ inputs.price_basis = none ∨
          inputs.price_basis = some 0 → it.cap_rate_stabilized = none) ∧
      (∀ n p, it.noi_for_cap = some n → inputs.price_basis = some p → p ≠ 0 →
        it.cap_rate_used = some (n / p)) ∧
      (it.noi_for_cap = none ∨ inputs.price_basis = none ∨
          inputs.price_basis = some 0 → it.cap_rate_used = none) := by
  obtain ⟨lc, hok⟩ := internals_shape pb inputs hA
  set it := internalsCore pb inputs lc with hit
  have e1 : it.cap_rate_in_place = safe_div inputs.noi_in_place inputs.price_basis := rfl
  have e2 : it.cap_rate_stabilized = safe_div inputs.noi_stabilized inputs.price_basis := rfl
  have e3 : it.cap_rate_used = safe_div it.noi_for_cap inputs.price_basis := rfl
  refine ⟨it, hok, rfl, e1, e2, e3, ?_, ?_, ?_, ?_, ?_, ?_⟩
  · intro n p hn hp hp0
    rw [e1, hn, hp]
    exact safe_div_some_some n p hp0
  · intro h
    rw [e1]
    exact safe_div_none_of _ _ h
  · intro n p hn hp hp0
    rw [e2, hn, hp]
    exact safe_div_some_some n p hp0
  · intro h
    rw [e2]
    exact safe_div_none_of _ _ h
  · intro n p hn hp hp0
    rw [e3, hn, hp]
    exact safe_div_some_some n p hp0
  · intro h
    rw [e3]
    exact safe_div_none_of _ _ h

/-- Witness for the amended C4: positive price basis and present NOIs on
the default playbook give both cap rates as plain quotients. -/
theorem cap_rates_guarded_witness :
    ∃ it, internals defaultPlaybook
        { price_basis := some 10000000, noi_in_place := some 900000,
          noi_stabilized := some 1100000 } = .ok it ∧
      it.noi_for_cap = some 1100000 ∧
      it.cap_rate_in_place = safe_div (some 900000) (some 10000000) ∧
      it.cap_rate_stabilized = safe_div (some 1100000) (some 10000000) ∧
      it.cap_rate_in_place = some (900000 / 10000000) ∧
      it.cap_rate_used = some (1100000 / 10000000) := by
  obtain ⟨it, hok, hcap, he1, he2, he3, hs1, _, _, _, hs3, _⟩ :=
    cap_rates_guarded defaultPlaybook
      { price_basis := some 10000000, noi_in_place := some 900000,
        noi_stabilized := some 1100000 } (by decide)
  exact ⟨it, hok, hcap, he1, he2,
    hs1 900000 10000000 rfl rfl (by norm_num),
    hs3 1100000 10000000 hcap rfl (by norm_num)⟩

/-! ## C10: totality of `compute_screening` -/

/-- Inversion: a successful `internals` run is the core on some computed
loan constant. -/
lemma internals_inv (pb : ScreeningPlaybook) (inputs : ScreeningScoringInputs)
    (it : Internals) (h : internals pb inputs = .ok it) :
    ∃ lc, it = internalsCore pb inputs lc := by
  unfold internals at h
  cases hE : (match inputs.price_basis.map (· * pb.debt_template.ltv) with
              | none => Except.ok (none : Option ℚ)
              | some _ =>
                  (loan_constant pb.debt_template.interest_rate
                    pb.debt_template.amort_years).map some) with
  | error e => rw [hE] at h; exact absurd h (by simp)
  | ok lc =>
      rw [hE] at h
      exact ⟨lc, by injection h with h; exact h.symm⟩

/-- C10: on a playbook satisfying the pydantic model constraints,
`compute_screening` always returns a result (the `ValueError` branch of
`loan_constant` is unreachable since `amort_years ≥ 1`); every division
is guarded — a missing or zero denominator yields a null metric — and
`cash_on_cash` is only ever computed from a strictly positive equity. -/
theorem compute_screening_total (pb : ScreeningPlaybook)
    (inputs : ScreeningScoringInputs) (hV : pb.Valid) :
    (∃ c, compute_screening pb inputs = .ok c) ∧
    (∀ x : Option ℚ, safe_div x none = none ∧ safe_div none x = none ∧
      safe_div x (some 0) = none) ∧
    (∀ it, internals pb inputs = .ok it →
      ∀ v, it.cash_on_cash = some v → ∃ e, it.equity = some e ∧ 0 < e) ∧
    (∀ r : ℚ, ∀ y : ℤ, 1 ≤ y → ∃ w, loan_constant r y = .ok w) := by
  obtain ⟨-, -, -, hd, -, -⟩ := hV
  obtain ⟨-, -, -, -, hA, -⟩ := hd
  refine ⟨?_, ?_, ?_, ?_⟩
  · obtain ⟨lc, hok⟩ := internals_shape pb inputs hA
    exact ⟨assemble pb (internalsCore pb inputs lc),
      compute_screening_of_internals pb inputs _ hok⟩
  · intro x
    exact ⟨safe_div_none_of x none (Or.inr (Or.inl rfl)),
      safe_div_none_of none x (Or.inl rfl),
      safe_div_none_of x (some 0) (Or.inr (Or.inr rfl))⟩
  · intro it hok v hv
    obtain ⟨lc, rfl⟩ := internals_inv pb inputs it hok
    have hrfl : (internalsCore pb inputs lc).cash_on_cash
        = (match (internalsCore pb inputs lc).cash_flow_after_debt,
                 (internalsCore pb inputs lc).equity with
           | some c, some e => if 0 < e then some (c / e) else none
           | _, _ => none) := rfl
    rw [hrfl] at hv
    cases hcf : (internalsCore pb inputs lc).cash_flow_after_debt with
    | none => rw [hcf] at hv; exact absurd hv (by simp)
    | some cfad =>
        cases heq : (internalsCore pb inputs lc).equity with
        | none => rw [hcf, heq] at hv; exact absurd hv (by simp)
        | some e =>
            rw [hcf, heq] at hv
            by_cases he : 0 < e
            · exact ⟨e, rfl, he⟩
            · exfalso
              have hred : (match (some cfad : Option ℚ), (some e : Option ℚ) with
                  | some c, some e => if 0 < e then some (c / e) else none
                  | _, _ => none) = (if 0 < e then some (cfad / e) else none) := rfl
              rw [hred, if_neg he] at hv
              exact Option.noConfusion hv
  · intro r y hy
    have hy0 : ¬ y ≤ 0 := by omega
    by_cases hr : r ≤ 0
    · refine ⟨1 / (y : ℚ), ?_⟩
      simp [loan_constant, hy0, hr]
    · refine ⟨(r / 12) * (1 + r / 12) ^ (y * 12).toNat
        / ((1 + r / 12) ^ (y * 12).toNat - 1) * 12, ?_⟩
      simp [loan_constant, hy0, hr]

/-- The default playbook satisfies every pydantic field constraint. -/
lemma defaultPlaybook_valid : defaultPlaybook.Valid := by
  unfold defaultPlaybook ScreeningPlaybook.Valid DebtTemplate.Valid HardFilters.Valid
    ClosingCostsTemplate.Valid ReservesTemplate.Valid
  norm_num

/-- Witness for C10: the default playbook on empty inputs. -/
theorem compute_screening_total_witness :
    (∃ c, compute_screening defaultPlaybook {} = .ok c) ∧
    (∀ x : Option ℚ, safe_div x none = none ∧ safe_div none x = none ∧
      safe_div x (some 0) = none) ∧
    (∀ it, internals defaultPlaybook {} = .ok it →
      ∀ v, it.cash_on_cash = some v → ∃ e, it.equity = some e ∧ 0 < e) ∧
    (∀ r : ℚ, ∀ y : ℤ, 1 ≤ y → ∃ w, loan_constant r y = .ok w) :=
  compute_screening_total defaultPlaybook {} defaultPlaybook_valid

/-! ## C6: number parsing -/

/-- C6: the resolver's number parser sends `None`, booleans and
empty/whitespace-only strings to missing; a string whose cleaned form
(after removing `$`, `,`, `%`, spaces) does not parse as a float is
missing (never zero, never an exception — the function is total); a
parseable string with `%` is divided by 100; a parseable currency string
yields the plain number.  Concrete cases: `"$1,234,567"` ↦ 1234567,
`"7.5%"` ↦ 0.075, whitespace ↦ missing, `"abc"` ↦ missing, and the
PEP 515 underscore grammar: `"_5"` ↦ missing, `"1_000"` ↦ 1000. -/
theorem parse_number_spec (b : Bool) (s : String) (q : ℚ) :
    parse_number .null = none ∧
    parse_number (.boolean b) = none ∧
    (pyStrip s = "" → parse_number (.str s) = none) ∧
    (floatOfChars (cleanString s).toList = none → parse_number (.str s) = none) ∧
    (floatOfChars (cleanString s).toList = some q →
      (pyStrip s).toList.contains '%' = true → parse_number (.str s) = some (q / 100)) ∧
    (floatOfChars (cleanString s).toList = some q →
      (pyStrip s).toList.contains '%' = false → parse_number (.str s) = some q) ∧
    parse_number (.str "$1,234,567") = some 1234567 ∧
    parse_number (.str "7.5%") = some (3/40) ∧
    parse_number (.str "   ") = none ∧
    parse_number (.str "abc") = none ∧
    parse_number (.str "_5") = none ∧
    parse_number (.str "1_000") = some 1000 := by
  have hclean_of_empty : ∀ t : String, pyStrip t = "" → cleanString t = "" := by
    intro t ht
    unfold cleanString
    rw [ht]
    rfl
  have hstr : ∀ t : String, pyStrip t ≠ "" → cleanString t ≠ "" →
      parse_number (.str t)
        = (match floatOfChars (cleanString t).toList with
           | none => none
           | some q =>
               some (if (pyStrip t).toList.contains '%' = true then q / 100 else q)) := by
    intro t h1 h2
    simp [parse_number, h1, h2]
  refine ⟨rfl, rfl, ?_, ?_, ?_, ?_, ?_, ?_, by decide, by decide, by decide, ?_⟩
  · intro h
    simp [parse_number, h]
  · intro h
    by_cases h1 : pyStrip s = ""
    · simp [parse_number, h1]
    · by_cases h2 : cleanString s = ""
      · simp [parse_number, h1, h2]
      · rw [hstr s h1 h2, h]
  · intro h hp
    by_cases h1 : pyStrip s = ""
    · exfalso
      rw [hclean_of_empty s h1] at h
      rw [show floatOfChars ("" : String).toList = none from rfl] at h
      cases h
    · by_cases h2 : cleanString s = ""
      · exfalso
        rw [h2, show floatOfChars ("" : String).toList = none from rfl] at h
        cases h
      · rw [hstr s h1 h2, h, hp]
        rfl
  · intro h hp
    by_cases h1 : pyStrip s = ""
    · exfalso
      rw [hclean_of_empty s h1] at h
      rw [show floatOfChars ("" : String).toList = none from rfl] at h
      cases h
    · by_cases h2 : cleanString s = ""
      · exfalso
        rw [h2, show floatOfChars ("" : String).toList = none from rfl] at h
        cases h
      · rw [hstr s h1 h2, h, hp]
        rfl
  · have h : parse_number (.str "$1,234,567")
        = some (1 * (((1234567:ℕ):ℚ) + ((0:ℕ):ℚ) / (10:ℚ) ^ (0:ℕ))) := rfl
    rw [h]
    norm_num
  · have h : parse_number (.str "7.5%")
        = some ((1 * (((7:ℕ):ℚ) + ((5:ℕ):ℚ) / (10:ℚ) ^ (1:ℕ))) / 100) := rfl
    rw [h]
    norm_num
  · have h : parse_number (.str "1_000")
        = some (1 * (((1000:ℕ):ℚ) + ((0:ℕ):ℚ) / (10:ℚ) ^ (0:ℕ))) := rfl
    rw [h]
    norm_num

/-- Witness for C6 at the percent string `"7.5%"` (and `None`, a boolean,
a malformed string and an underscore-leading group). -/
theorem parse_number_spec_witness :
    parse_number .null = none ∧
    parse_number (.boolean true) = none ∧
    parse_number (.str "7.5%")
      = some ((1 * (((7:ℕ):ℚ) + ((5:ℕ):ℚ) / (10:ℚ) ^ (1:ℕ))) / 100) ∧
    parse_number (.str "abc") = none ∧
    parse_number (.str "_5") = none := by
  have h := parse_number_spec true "7.5%"
    (1 * (((7:ℕ):ℚ) + ((5:ℕ):ℚ) / (10:ℚ) ^ (1:ℕ)))
  exact ⟨h.1, h.2.1, h.2.2.2.2.1 rfl rfl, h.2.2.2.2.2.2.2.2.2.1,
    h.2.2.2.2.2.2.2.2.2.2.1⟩

/-! ## C7: override precedence in `build_screening_inputs` -/

/-- C7: when a raw field key carries a field-scope override, the
resolution step of `build_screening_inputs` returns the override
record's coerced value for that key no matter what extracted field
values (with whatever confidence) are supplied, and
`build_screening_inputs` itself cannot distinguish two field-value lists
that agree on every non-overridden key — the extracted value for the
overridden key is ignored wholesale. -/
theorem build_screening_inputs_override_precedence
    (fvs fvs' ovs : List ValueRecord) (raw : String) (ov : ValueRecord)
    (hov : overrideFor ovs "field" raw = some ov)
    (hagree : ∀ k, k ≠ raw → resolve_one fvs ovs k = resolve_one fvs' ovs k) :
    resolve_one fvs ovs raw = coerce_value ov ∧
    resolve_one fvs' ovs raw = coerce_value ov ∧
    build_screening_inputs fvs ovs = build_screening_inputs fvs' ovs := by
  have h1 : resolve_one fvs ovs raw = coerce_value ov := by
    simp [resolve_one, hov]
  have h2 : resolve_one fvs' ovs raw = coerce_value ov := by
    simp [resolve_one, hov]
  have hall : ∀ k, resolve_one fvs ovs k = resolve_one fvs' ovs k := by
    intro k
    by_cases hk : k = raw
    · subst hk; rw [h1, h2]
    · exact hagree k hk
  refine ⟨h1, h2, ?_⟩
  unfold build_screening_inputs build_resolved
  simp only [hall]

/-- The override row used in the C7 witness. -/
def w7OverrideRec : ValueRecord :=
  { field_key := some "noi_in_place", scope := some "field", value_number := .num 42 }

/-- An extracted `noi_in_place` row with full confidence, value 100. -/
def w7Extracted : List ValueRecord :=
  [{ field_key := some "noi_in_place", value_number := .num 100,
     confidence := .num 1 }]

def w7Overrides : List ValueRecord := [w7OverrideRec]

/-- Witness for C7: with an override `noi_in_place = 42` present, the
fully-confident extracted value 100 is ignored — the resolver returns
42, both through an extracted row and with no extracted rows at all. -/
theorem build_screening_inputs_override_precedence_witness :
    resolve_one w7Extracted w7Overrides "noi_in_place" = coerce_value w7OverrideRec ∧
    resolve_one ([] : List ValueRecord) w7Overrides "noi_in_place"
      = coerce_value w7OverrideRec ∧
    build_screening_inputs w7Extracted w7Overrides
      = build_screening_inputs [] w7Overrides ∧
    (build_screening_inputs w7Extracted w7Overrides).noi_in_place = some 42 := by
  have hagree : ∀ k, k ≠ "noi_in_place" →
      resolve_one w7Extracted w7Overrides k = resolve_one [] w7Overrides k := by
    intro k hk
    have hbeq : (k == "noi_in_place") = false := beq_eq_false_iff_ne.mpr hk
    simp [resolve_one, overrideFor, build_override_map, build_values_map,
      List.foldl, List.lookup, hbeq]
  have h := build_screening_inputs_override_precedence w7Extracted [] w7Overrides
    "noi_in_place" w7OverrideRec (by decide) hagree
  exact ⟨h.1, h.2.1, h.2.2, by decide⟩

/-! ## C8: score overrides are a pure, frame-limited post-processing step -/

lemma applyOneScoreOverride_ne (ovs : List ValueRecord) (m : String → RawValue)
    (key k : String) (h : k ≠ key) : applyOneScoreOverride ovs m key k = m k := by
  unfold applyOneScoreOverride
  cases overrideFor ovs "score" key with
  | none => rfl
  | some ov =>
      show (match coerce_value ov with
            | none => m
            | some q => updateKey m key (.num q)) k = m k
      cases coerce_value ov with
      | none => rfl
      | some q => simp [updateKey, h]

lemma applyOneScoreOverride_self (ovs : List ValueRecord) (m : String → RawValue)
    (key : String) :
    applyOneScoreOverride ovs m key key
      = (match overrideFor ovs "score" key with
         | none => m key
         | some ov =>
             match coerce_value ov with
             | none => m key
             | some q => .num q) := by
  unfold applyOneScoreOverride
  cases overrideFor ovs "score" key with
  | none => rfl
  | some ov =>
      show (match coerce_value ov with
            | none => m
            | some q => updateKey m key (.num q)) key
        = (match coerce_value ov with
           | none => m key
           | some q => .num q)
      cases coerce_value ov with
      | none => rfl
      | some q => simp [updateKey]

/-- C8: `apply_score_overrides` is pure post-processing — it returns a
mapping that agrees with `base_scores` on every key outside
overall/financial/qualitative (in a pure embedding this is the statement
that the stored base scores are not mutated), and replaces one of those
three keys only when a score-scope override for it coerces to a number;
a missing or non-numeric override leaves the base value. -/
theorem apply_score_overrides_spec (base : String → RawValue)
    (ovs : List ValueRecord) (k : String) :
    (k ∉ SCORE_OVERRIDE_KEYS → apply_score_overrides base ovs k = base k) ∧
    (∀ key ∈ SCORE_OVERRIDE_KEYS,
      (overrideFor ovs "score" key = none →
        apply_score_overrides base ovs key = base key) ∧
      (∀ ov, overrideFor ovs "score" key = some ov → coerce_value ov = none →
        apply_score_overrides base ovs key = base key) ∧
      (∀ ov q, overrideFor ovs "score" key = some ov → coerce_value ov = some q →
        apply_score_overrides base ovs key = .num q)) := by
  have hunfold : apply_score_overrides base ovs
      = applyOneScoreOverride ovs
          (applyOneScoreOverride ovs
            (applyOneScoreOverride ovs base "overall_score") "financial_score")
          "qualitative_score" := rfl
  have hoverall : apply_score_overrides base ovs "overall_score"
      = (match overrideFor ovs "score" "overall_score" with
         | none => base "overall_score"
         | some ov =>
             match coerce_value ov with
             | none => base "overall_score"
             | some q => .num q) := by
    rw [hunfold, applyOneScoreOverride_ne _ _ _ _ (by decide),
      applyOneScoreOverride_ne _ _ _ _ (by decide)]
    exact applyOneScoreOverride_self ovs base "overall_score"
  have hfin : apply_score_overrides base ovs "financial_score"
      = (match overrideFor ovs "score" "financial_score" with
         | none => base "financial_score"
         | some ov =>
             match coerce_value ov with
             | none => base "financial_score"
             | some q => .num q) := by
    rw [hunfold, applyOneScoreOverride_ne _ _ _ _ (by decide),
      applyOneScoreOverride_self ovs _ "financial_score",
      applyOneScoreOverride_ne _ _ _ _ (by decide)]
  have hqual : apply_score_overrides base ovs "qualitative_score"
      = (match overrideFor ovs "score" "qualitative_score" with
         | none => base "qualitative_score"
         | some ov =>
             match coerce_value ov with
             | none => base "qualitative_score"
             | some q => .num q) := by
    rw [hunfold, applyOneScoreOverride_self ovs _ "qualitative_score",
      applyOneScoreOverride_ne _ _ _ _ (by decide),
      applyOneScoreOverride_ne _ _ _ _ (by decide)]
  constructor
  · intro hk
    simp only [SCORE_OVERRIDE_KEYS, List.mem_cons, List.not_mem_nil, or_false,
      not_or] at hk
    obtain ⟨hk1, hk2, hk3⟩ := hk
    rw [hunfold, applyOneScoreOverride_ne _ _ _ _ hk3,
      applyOneScoreOverride_ne _ _ _ _ hk2, applyOneScoreOverride_ne _ _ _ _ hk1]
  · intro key hkey
    have hcases : key = "overall_score" ∨ key = "financial_score" ∨
        key = "qualitative_score" := by
      simpa [SCORE_OVERRIDE_KEYS] using hkey
    rcases hcases with rfl | rfl | rfl
    · exact ⟨fun ho => by simp only [hoverall, ho],
        fun ov ho hc => by simp only [hoverall, ho, hc],
        fun ov q ho hc => by simp only [hoverall, ho, hc]⟩
    · exact ⟨fun ho => by simp only [hfin, ho],
        fun ov ho hc => by simp only [hfin, ho, hc],
        fun ov q ho hc => by simp only [hfin, ho, hc]⟩
    · exact ⟨fun ho => by simp only [hqual, ho],
        fun ov ho hc => by simp only [hqual, ho, hc],
        fun ov q ho hc => by simp only [hqual, ho, hc]⟩

/-- A numeric score-scope override for `overall_score`. -/
def w8OvRec1 : ValueRecord :=
  { field_key := some "overall_score", scope := some "score", value_number := .num 4 }

/-- A non-numeric score-scope override for `financial_score`. -/
def w8OvRec2 : ValueRecord :=
  { field_key := some "financial_score", scope := some "score",
    value_text := .str "abc" }

def w8Overrides : List ValueRecord := [w8OvRec1, w8OvRec2]

/-- A concrete base-score mapping. -/
def w8Base : String → RawValue := fun k =>
  if k = "overall_score" then .num 3
  else if k = "financial_score" then .num 2
  else .null

/-- Witness for C8: on concrete overrides, a key outside the score keys
keeps its base value, a numeric override replaces `overall_score`, and
the non-numeric override leaves `financial_score` at its base value. -/
theorem apply_score_overrides_spec_witness :
    apply_score_overrides w8Base w8Overrides "metric_x" = w8Base "metric_x" ∧
    apply_score_overrides w8Base w8Overrides "overall_score" = .num 4 ∧
    apply_score_overrides w8Base w8Overrides "financial_score"
      = w8Base "financial_score" := by
  have h := apply_score_overrides_spec w8Base w8Overrides "metric_x"
  refine ⟨h.1 (by decide), ?_, ?_⟩
  · exact (h.2 "overall_score" (by decide)).2.2 w8OvRec1 4 (by decide) (by decide)
  · exact (h.2 "financial_score" (by decide)).2.1 w8OvRec2 (by decide) (by decide)

/-! ## C9: retry/backoff of the job-queue worker loop -/

lemma worker_step_retry_inv (cfg : RetryConfig) (job : QueueJob) (raises : Bool)
    (d : ℚ) (next : QueueJob) (h : worker_step cfg job raises = .retry d next) :
    raises = true ∧ job.attempt < cfg.max_retries ∧
    d = min cfg.max_delay (cfg.base_delay * 2 ^ job.attempt) ∧
    next = { job with attempt := job.attempt + 1 } := by
  unfold worker_step at h
  split_ifs at h with h1 h2
  cases h
  exact ⟨by revert h1; cases raises <;> simp, h2, rfl, rfl⟩

lemma jobTraceAux_count_le (cfg : RetryConfig) (failsAt : ℕ → Bool) :
    ∀ fuel (job : QueueJob), (jobTraceAux cfg failsAt job fuel).1 ≤ fuel := by
  intro fuel
  induction fuel with
  | zero => intro job; simp [jobTraceAux]
  | succ n ih =>
      intro job
      unfold jobTraceAux
      cases hws : worker_step cfg job (failsAt job.attempt) with
      | done => simp
      | failedFinal => simp
      | retry d next =>
          simp only []
          have := ih next
          omega

lemma jobTraceAux_delays (cfg : RetryConfig) (failsAt : ℕ → Bool)
    (hb : 0 ≤ cfg.base_delay) :
    ∀ fuel (job : QueueJob),
      ((jobTraceAux cfg failsAt job fuel).2.1).Chain' (· ≤ ·) ∧
      (∀ d ∈ (jobTraceAux cfg failsAt job fuel).2.1, d ≤ cfg.max_delay) ∧
      (∀ x, ((jobTraceAux cfg failsAt job fuel).2.1).head? = some x →
        x = min cfg.max_delay (cfg.base_delay * 2 ^ job.attempt)) := by
  intro fuel
  induction fuel with
  | zero =>
      intro job
      refine ⟨by simp [jobTraceAux], by simp [jobTraceAux], ?_⟩
      intro x hx
      simp [jobTraceAux] at hx
  | succ n ih =>
      intro job
      unfold jobTraceAux
      cases hws : worker_step cfg job (failsAt job.attempt) with
      | done => exact ⟨by simp, by simp, by simp⟩
      | failedFinal => exact ⟨by simp, by simp, by simp⟩
      | retry d next =>
          obtain ⟨-, -, hd, hnext⟩ := worker_step_retry_inv cfg job _ d next hws
          have hattempt : next.attempt = job.attempt + 1 := by rw [hnext]
          obtain ⟨ihc, ihm, ihh⟩ := ih next
          have hmono : d ≤ min cfg.max_delay (cfg.base_delay * 2 ^ next.attempt) := by
            rw [hd, hattempt]
            refine min_le_min le_rfl ?_
            refine mul_le_mul_of_nonneg_left ?_ hb
            exact pow_le_pow_right₀ one_le_two (Nat.le_succ _)
          refine ⟨?_, ?_, ?_⟩
          · refine List.chain'_cons'.mpr ⟨?_, ihc⟩
            intro y hy
            rw [ihh y hy] at *
            exact hmono
          · intro x hx
            rcases List.mem_cons.mp hx with rfl | hx
            · rw [hd]; exact min_le_left _ _
            · exact ihm x hx
          · intro x hx
            simp only [List.head?_cons, Option.some.injEq] at hx
            rw [← hx, hd]

/-- C9: when a handler invocation raises, the worker loop retries iff the
job's attempt counter is below `max_retries` — re-enqueueing exactly one
job with `attempt + 1` after a delay of
`min(max_delay, base_delay · 2^attempt)` (the `.retry` outcome carries
the on-retry callback) — and otherwise invokes the on-fail callback and
re-enqueues nothing (`.failedFinal`).  A `.retry` outcome can only arise
that way.  Consequently a job's handler runs at most `max_retries + 1`
times and its retry delays are non-decreasing and capped at
`max_delay`. -/
theorem job_queue_retry_backoff (cfg : RetryConfig) (job : QueueJob)
    (failsAt : ℕ → Bool) (jt : String) (hb : 0 ≤ cfg.base_delay) :
    (job.attempt < cfg.max_retries →
      worker_step cfg job true
        = .retry (min cfg.max_delay (cfg.base_delay * 2 ^ job.attempt))
            { job with attempt := job.attempt + 1 }) ∧
    (cfg.max_retries ≤ job.attempt → worker_step cfg job true = .failedFinal) ∧
    (∀ (raises : Bool) (d : ℚ) (next : QueueJob),
      worker_step cfg job raises = .retry d next →
      raises = true ∧ job.attempt < cfg.max_retries ∧
      d = min cfg.max_delay (cfg.base_delay * 2 ^ job.attempt) ∧
      next = { job with attempt := job.attempt + 1 }) ∧
    (jobTrace cfg failsAt jt).1 ≤ cfg.max_retries + 1 ∧
    List.Chain' (· ≤ ·) (jobTrace cfg failsAt jt).2.1 ∧
    (∀ d ∈ (jobTrace cfg failsAt jt).2.1, d ≤ cfg.max_delay) := by
  refine ⟨?_, ?_, fun raises d next h => worker_step_retry_inv cfg job raises d next h,
    jobTraceAux_count_le cfg failsAt _ _, ?_, ?_⟩
  · intro h
    simp [worker_step, h]
  · intro h
    simp [worker_step, Nat.not_lt.mpr h]
  · exact (jobTraceAux_delays cfg failsAt hb _ _).1
  · exact (jobTraceAux_delays cfg failsAt hb _ _).2.1

/-- Witness for C9: default configuration (3 retries, base delay 2s,
cap 30s), an always-failing handler, job type `"screening"`. -/
theorem job_queue_retry_backoff_witness :
    (({ job_type := "screening" } : QueueJob).attempt < ({} : RetryConfig).max_retries →
      worker_step {} { job_type := "screening" } true
        = .retry (min ({} : RetryConfig).max_delay
              (({} : RetryConfig).base_delay
                * 2 ^ ({ job_type := "screening" } : QueueJob).attempt))
            { ({ job_type := "screening" } : QueueJob) with
                attempt := ({ job_type := "screening" } : QueueJob).attempt + 1 }) ∧
    (({} : RetryConfig).max_retries ≤ ({ job_type := "screening" } : QueueJob).attempt →
      worker_step {} { job_type := "screening" } true = .failedFinal) ∧
    (∀ (raises : Bool) (d : ℚ) (next : QueueJob),
      worker_step {} { job_type := "screening" } raises = .retry d next →
      raises = true ∧
      ({ job_type := "screening" } : QueueJob).attempt < ({} : RetryConfig).max_retries ∧
      d = min ({} : RetryConfig).max_delay
            (({} : RetryConfig).base_delay
              * 2 ^ ({ job_type := "screening" } : QueueJob).attempt) ∧
      next = { ({ job_type := "screening" } : QueueJob) with
                 attempt := ({ job_type := "screening" } : QueueJob).attempt + 1 }) ∧
    (jobTrace {} (fun _ => true) "screening").1 ≤ ({} : RetryConfig).max_retries + 1 ∧
    List.Chain' (· ≤ ·) (jobTrace {} (fun _ => true) "screening").2.1 ∧
    (∀ d ∈ (jobTrace {} (fun _ => true) "screening").2.1,
      d ≤ ({} : RetryConfig).max_delay) :=
  job_queue_retry_backoff {} { job_type := "screening" } (fun _ => true) "screening"
    (by decide)

end GpcCres
